import Mathlib

/-!
# Verification of the media-lib MP4 demuxer and H.264 SPS parser

Shallow embedding of the C sources (src/c/mp4.c, src/c/h264.c) of the
viziotrace/media-lib repository, together with theorems settling the frozen
claims about the natural-language specification.

Modelling conventions:
* A file on disk is a `List Nat` of byte values (each < 256 in every input we
  construct); machine integers are `Nat` with explicit `% 2 ^ 32` where the C
  code can overflow a `uint32_t`.
* `fread` of n bytes that cannot be completed makes the C parse functions
  return an error; such reads are `Option`-valued (`none` = short read).
* An unchecked array access that can fall outside the allocated object
  (undefined behaviour in C) is modelled with `List.get?`; the surrounding
  function then returns `none` to mark the undefined-behaviour path.
* `fseek` on a regular file succeeds even past end-of-file, and a short
  `fread` on a regular file sets the end-of-file flag; both facts are used
  where `read_next_sample` is embedded.
* The host is little-endian (the program targets macOS/VideoToolbox), which
  matters only for the `ntohl`-based 64-bit size conversion.
-/

namespace MediaLib

/-! ## Bit-level reader (src/c/h264.c)

`read_golomb` reads an unsigned Exp-Golomb value from `data` at a moving bit
cursor.  The C function returns a plain `uint32_t` and has two early
`return 0;` paths taken when the buffer is exhausted; the embedding returns
`(value, new bit offset, exhausted)` where the third component records, as an
observable, that one of those two early-return paths was taken.  The C code
performs no array access without first checking the cursor against
`size * 8`, so byte access here is total. -/

/-- The bit of `d` at bit offset `off` (most-significant bit first), i.e. the
C expression `(data[off / 8] & (0x80 >> (off % 8))) != 0` as a 0/1 value.
Callers guarantee `off < 8 * d.length`. -/
def bitAt (d : List Nat) (off : Nat) : Nat :=
  d.getD (off / 8) 0 / 2 ^ (7 - off % 8) % 2

/-- The leading-zero-counting loop of `read_golomb`: starting at bit `off`
with `fuel = 8 * d.length - off` remaining bits, count zero bits until a one
bit or the end of the buffer.  Returns `(leading_zeros, new offset)`. -/
def czero (d : List Nat) (off : Nat) : Nat → Nat × Nat
  | 0 => (0, off)
  | Nat.succ fuel =>
    if bitAt d off = 1 then (0, off)
    else
      let r := czero d (off + 1) fuel
      (r.1 + 1, r.2)

/-- The trailing-bits loop of `read_golomb`: after the stop bit at `off`,
read `k` more bits into the `uint32_t` accumulator `code` (wrapping mod
`2 ^ 32` like the C shift), then step past the stop bit and return
`code - 1` (also with `uint32_t` wrap-around).  The Bool marks the early
`return 0;` taken when the cursor reaches the end of the buffer. -/
def golombTail (d : List Nat) (n off code : Nat) : Nat → Nat × Nat × Bool
  | 0 => ((code + (2 ^ 32 - 1)) % 2 ^ 32, off + 1, false)
  | Nat.succ k =>
    let o := off + 1
    if n ≤ o then (0, o, true)
    else golombTail d n o ((code * 2 + bitAt d o) % 2 ^ 32) k

/-- `read_golomb` from src/c/h264.c, lines 6-27.  Result is
`(value, new bit offset, exhausted)`; `exhausted = true` exactly on the two
`return 0;` paths the C function takes when the buffer ends before the
Exp-Golomb code is complete. -/
def readGolomb (d : List Nat) (off : Nat) : Nat × Nat × Bool :=
  let n := d.length * 8
  let z := czero d off (n - off)
  if n ≤ z.2 + z.1 then (0, z.2, true)
  else golombTail d n z.2 1 z.1

/-- Value component of `readGolomb`. -/
def golombVal (d : List Nat) (off : Nat) : Nat := (readGolomb d off).1

/-- Offset component of `readGolomb` (the cursor after the read). -/
def skipGolomb (d : List Nat) (off : Nat) : Nat := (readGolomb d off).2.1

/-! ## SPS parsing (src/c/h264.c, `parse_sps`, lines 30-113)

`parse_sps` reads `profile_idc` from `data[0]` and `level_idc` from `data[2]`
and starts its bit cursor at bit 24 — it does NOT skip a 1-byte NAL header
(on a real SPS NAL unit, `data[0]` is the NAL header byte, e.g. 0x67).
Besides `read_golomb`, it reads single flag bits with unchecked array
accesses (`data[bit_offset / 8]`); those are modelled with `sbitAt`, and an
out-of-range access makes the embedding return `none` (undefined behaviour).
-/

/-- An unchecked single-bit read `(data[off / 8] & (0x80 >> (off % 8))) != 0`;
`none` when the byte access is out of range (undefined behaviour in C). -/
def sbitAt (d : List Nat) (off : Nat) : Option Nat :=
  (d.get? (off / 8)).map (fun b => b / 2 ^ (7 - off % 8) % 2)

/-- The scaling-matrix skip loop of `parse_sps` (lines 61-69): for each of
`count` entries, read a presence bit (unchecked access) at the cursor; if
set, advance 64 bits; then advance 1 bit. -/
def scalingSkip (d : List Nat) (off : Nat) : Nat → Option Nat
  | 0 => some off
  | Nat.succ k => do
    let b ← sbitAt d off
    scalingSkip d (off + (if b ≠ 0 then 65 else 1)) k

/-- The `pic_order_cnt_type = 1` loop of `parse_sps` (lines 84-86): skip
`k` Exp-Golomb values. -/
def seSkipLoop (d : List Nat) (off : Nat) : Nat → Nat
  | 0 => off
  | Nat.succ k => seSkipLoop d (skipGolomb d off) k

/-- The list of extended profiles checked at lines 43-47 of parse_sps. -/
def extendedProfile (p : Nat) : Bool :=
  p = 100 || p = 110 || p = 122 || p = 244 || p = 44 ||
  p = 83 || p = 86 || p = 118 || p = 128 || p = 138

/-- `parse_sps` from src/c/h264.c.  Returns
`(profile_idc, level_idc, width, height)` on the `H264_SUCCESS` path;
`none` models the `H264_ERROR_INVALID_PARAM` return (size < 4) or an
out-of-range flag-bit access (undefined behaviour).  Note: the loop bound
`num_ref_frames_in_poc_cycle` is a C `int`; a `uint32_t` golomb value
≥ 2^31 converts to a negative `int`, so the loop body runs zero times. -/
def parseSps (d : List Nat) : Option (Nat × Nat × Nat × Nat) := do
  if d.length < 4 then none
  else
    let profile := d.getD 0 0
    let level := d.getD 2 0
    let off := 24
    let off := skipGolomb d off                       -- seq_parameter_set_id
    let off ←
      (if extendedProfile profile then do
        let g := readGolomb d off
        let chroma := g.1
        let off := g.2.1
        let off := if chroma = 3 then off + 1 else off -- separate_colour_plane_flag
        let off := skipGolomb d off                   -- bit_depth_luma_minus8
        let off := skipGolomb d off                   -- bit_depth_chroma_minus8
        let off := off + 1                            -- qpprime_y_zero_transform_bypass_flag
        let b ← sbitAt d off                          -- seq_scaling_matrix_present_flag
        let off := off + 1
        if b ≠ 0 then scalingSkip d off (if chroma ≠ 3 then 8 else 12)
        else pure off
      else pure off)
    let off := skipGolomb d off                       -- log2_max_frame_num_minus4
    let g := readGolomb d off
    let poc := g.1
    let off := g.2.1
    let off ←
      (if poc = 0 then pure (skipGolomb d off)        -- log2_max_pic_order_cnt_lsb_minus4
      else if poc = 1 then do
        let off := off + 1                            -- delta_pic_order_always_zero_flag
        let off := skipGolomb d off                   -- offset_for_non_ref_pic
        let off := skipGolomb d off                   -- offset_for_top_to_bottom_field
        let g2 := readGolomb d off
        let num := g2.1
        let off := g2.2.1
        pure (seSkipLoop d off (if num < 2 ^ 31 then num else 0))
      else pure off)
    let off := skipGolomb d off                       -- max_num_ref_frames
    let off := off + 1                                -- gaps_in_frame_num_value_allowed_flag
    let gw := readGolomb d off
    let widthInMbs := gw.1 + 1
    let off := gw.2.1
    let gh := readGolomb d off
    let heightInMapUnits := gh.1 + 1
    let off := gh.2.1
    let fb ← sbitAt d off                             -- frame_mbs_only_flag
    let frameMbsOnly := if fb ≠ 0 then 1 else 0
    -- if !frame_mbs_only: the cursor skips mb_adaptive_frame_field_flag,
    -- with no further array access
    pure (profile, level, widthInMbs * 16, (2 - frameMbsOnly) * heightInMapUnits * 16)

/-! ## Byte-level file reads (src/c/mp4.c)

The MP4 code reads from a `FILE *` with `fseek`/`fread`.  A file is a
`List Nat` of bytes; a read of `n` bytes at position `pos` succeeds iff
`pos + n ≤ file.length` (a seek past end-of-file succeeds, the following
read then comes up short).  All multi-byte container integers are
big-endian (`ntohl` / `ntohs` on a little-endian host). -/

/-- Big-endian 32-bit value of (the first four elements of) a byte list. -/
def be32 (l : List Nat) : Nat :=
  l.getD 0 0 * 16777216 + l.getD 1 0 * 65536 + l.getD 2 0 * 256 + l.getD 3 0

/-- Read `n` bytes at byte position `pos`; `none` models a short `fread`. -/
def readBytesAt (f : List Nat) (pos n : Nat) : Option (List Nat) :=
  if pos + n ≤ f.length then some ((f.drop pos).take n) else none

/-- `fread` of one byte at `pos`. -/
def readU8 (f : List Nat) (pos : Nat) : Option Nat := f.get? pos

/-- `fread` of a `uint16_t` at `pos` followed by `ntohs`. -/
def readU16 (f : List Nat) (pos : Nat) : Option Nat :=
  (readBytesAt f pos 2).map (fun l => l.getD 0 0 * 256 + l.getD 1 0)

/-- `fread` of a `uint32_t` at `pos` followed by `ntohl`. -/
def readU32 (f : List Nat) (pos : Nat) : Option Nat :=
  (readBytesAt f pos 4).map be32

/-- The conversion `read_box_header` applies to an 8-byte `largesize` on a
little-endian host: `((uint64_t)ntohl(x >> 32) << 32) | ntohl((uint32_t)x)`
swaps bytes within each 4-byte half but keeps the halves in file order, so
the bytes `b0 .. b7` at `pos` yield `be32 [b4,b5,b6,b7] * 2^32 +
be32 [b0,b1,b2,b3]`. -/
def readLargeSize (f : List Nat) (pos : Nat) : Option Nat := do
  let hi ← readU32 f (pos + 4)
  let lo ← readU32 f pos
  pure (hi * 4294967296 + lo)

/-! ## Box types and the box tree (src/c/mp4.c, lines 8-21, 429-587) -/

def boxMoov : Nat := 0x6D6F6F76
def boxTrak : Nat := 0x7472616B
def boxMdia : Nat := 0x6D646961
def boxMinf : Nat := 0x6D696E66
def boxStbl : Nat := 0x7374626C
def boxStsz : Nat := 0x7374737A
def boxStco : Nat := 0x7374636F
def boxHdlr : Nat := 0x68646C72
def boxAvcC : Nat := 0x61766343
def boxStsd : Nat := 0x73747364
def handlerVide : Nat := 0x76696465
def handlerSoun : Nat := 0x736F756E

/-- Result of `read_box_header` (src/c/mp4.c, lines 69-126): the raw 32-bit
`size` field, the FourCC `ty`, and the effective `largesize`. -/
structure BoxHeader where
  size : Nat
  ty : Nat
  largesize : Nat
deriving DecidableEq, Repr

/-- `read_box_header`: fails (`none`) when fewer than 8 bytes remain in the
file, when `size < 8` with `size ≠ 1`, or — in the 64-bit form — when fewer
than 16 bytes remain or the converted large size is < 16. -/
def readBoxHeader (f : List Nat) (pos : Nat) : Option BoxHeader := do
  if pos + 8 > f.length then none
  else
    let size ← readU32 f pos
    let ty ← readU32 f (pos + 4)
    if size < 8 ∧ size ≠ 1 then none
    else if size = 1 then
      if pos + 16 > f.length then none
      else
        let ls ← readLargeSize f (pos + 8)
        if ls < 16 then none else pure ⟨size, ty, ls⟩
    else pure ⟨size, ty, size⟩

/-- The box tree, mirroring the C `MP4Box` links: `cons ty sz off children
rest` is a node whose `first_child` list is `children` and whose
`next_sibling` chain is `rest`; `nil` is a null pointer. -/
inductive BoxForest where
  | nil : BoxForest
  | cons (ty sz off : Nat) (children rest : BoxForest) : BoxForest
deriving DecidableEq, Repr

/-- The container FourCCs `create_box_tree` recurses into (lines 503-516). -/
def isContainer (t : Nat) : Bool :=
  t = boxMoov || t = boxTrak || t = boxMdia || t = boxMinf ||
  t = boxStbl || t = boxStsd

/-- `create_box_tree` (src/c/mp4.c, lines 445-528).  The C loop condition
`current_offset < end_offset && box_count < 1000` and the entry validation
`end_offset > file_size || start_offset >= end_offset` are merged into one
guard (the entry validation never fails on recursive calls because child
ranges are validated before recursing).  Any header-read or size-validation
failure `break`s, keeping the siblings already built.  `fuel` only bounds
the recursion for Lean: every sibling step advances `cur` by `largesize ≥ 8`
and every child range is at least 8 bytes shorter, so with the top-level
call's `fuel = f.length + 1` the fuel is never the binding constraint. -/
def createBoxTree (f : List Nat) : Nat → Nat → Nat → Nat → BoxForest
  | 0, _, _, _ => .nil
  | Nat.succ fuel, cur, e, cnt =>
    if e ≤ f.length ∧ cur < e ∧ cnt < 1000 then
      match readBoxHeader f cur with
      | none => .nil
      | some hd =>
        if hd.largesize < 8 ∨ e < cur + hd.largesize then .nil
        else
          let hlen := if hd.size = 1 then 16 else 8
          let boxEnd := cur + hd.largesize
          let childStart := cur + hlen
          let children :=
            if isContainer hd.ty ∧ childStart < boxEnd ∧ cur < childStart then
              createBoxTree f fuel childStart boxEnd 0
            else .nil
          .cons hd.ty hd.largesize cur children
            (createBoxTree f fuel (cur + hd.largesize) e (cnt + 1))
    else .nil

/-- A position in the box tree: the found box (its type, size, offset and
children) together with its `next_sibling` chain `after` and, for each
ancestor, that ancestor's `next_sibling` chain (`anc`, innermost first) —
the information the C traversal reaches through `next_sibling` / `parent`
pointers. -/
structure FoundBox where
  ty : Nat
  sz : Nat
  off : Nat
  children : BoxForest
  after : BoxForest
  anc : List BoxForest
deriving DecidableEq, Repr

/-- Rebuild the forest rooted at a found box (the box followed by its later
siblings), used to restart a search at that box as
`find_box_by_type(box, t)` does. -/
def FoundBox.reforest (p : FoundBox) : BoxForest :=
  .cons p.ty p.sz p.off p.children p.after

/-- `find_box_by_type` (src/c/mp4.c, lines 545-561): pre-order search of a
forest — the box itself, then its children, then its later siblings — with
the ancestor context `anc` threaded through so the result is a full
position.  `find_box_by_type` itself never ascends to a parent, so `anc`
only decorates the result. -/
def findBoxZ (l : BoxForest) (anc : List BoxForest) (t : Nat) : Option FoundBox :=
  match l with
  | .nil => none
  | .cons ty sz off ch rest =>
    if ty = t then some ⟨ty, sz, off, ch, rest, anc⟩
    else
      match findBoxZ ch (rest :: anc) t with
      | some r => some r
      | none => findBoxZ rest anc t

/-- `find_box_by_type(box, t)` restricted to a forest with no ancestor
context, as used for searches inside one `trak` or `stbl` scope. -/
def findBoxT (l : BoxForest) (t : Nat) : Option FoundBox := findBoxZ l [] t

/-- `find_next_box_by_type` (src/c/mp4.c, lines 563-587) relative to a
position: search the later siblings (each one and its subtree, in order),
then recurse on the parent's later siblings. -/
def findNextZ : BoxForest → List BoxForest → Nat → Option FoundBox
  | after, anc, t =>
    match findBoxZ after anc t with
    | some r => some r
    | none =>
      match anc with
      | [] => none
      | a :: rest => findNextZ a rest t

/-! ## Demuxer context (src/c/mp4.h) and the table parsers -/

/-- `TrackType` from src/c/mp4.h. -/
inductive TrackType where
  | unknown
  | video
  | audio
deriving DecidableEq, Repr

/-- `MP4Status` from src/c/mp4.h. -/
inductive MP4Status where
  | success
  | ioError
  | memError
  | formatError
  | eofError
  | invalidParam
deriving DecidableEq, Repr

/-- `H264Parameters` from src/c/mp4.h; the byte lists carry their sizes
(`sps_size` = `(sps.getD []).length` whenever `sps` is set). -/
structure H264Params where
  sps : Option (List Nat)
  pps : Option (List Nat)
  width : Nat
  height : Nat
deriving DecidableEq, Repr

/-- `MP4Context` from src/c/mp4.h.  `sampleOffsets`/`sampleSizes` are
`none` while the corresponding pointer is NULL.  The `FILE *` member is
carried separately as the immutable byte list; its seek position is not
modelled because every read in `read_next_sample` starts with an absolute
`fseek`.  The `video_timescale` field of the C struct is never referenced
anywhere in the sources and is omitted. -/
structure MP4Ctx where
  fileSize : Nat
  sampleCount : Nat
  currentSample : Nat
  trackType : TrackType
  timescale : Nat
  h264 : H264Params
  sampleOffsets : Option (List Nat)
  sampleSizes : Option (List Nat)
deriving DecidableEq, Repr

/-- The zero-initialised context `mp4_open` builds with `memset` (file size
filled in right after). -/
def emptyCtx (fileSize : Nat) : MP4Ctx :=
  { fileSize := fileSize
    sampleCount := 0
    currentSample := 0
    trackType := .unknown
    timescale := 0
    h264 := { sps := none, pps := none, width := 0, height := 0 }
    sampleOffsets := none
    sampleSizes := none }

/-- `MP4Sample` from src/c/mp4.h; `pts` is the `CMTime` pair
`(ptsVal, ptsTs)` built by `CMTimeMake(current_sample, timescale)`. -/
structure Sample where
  data : List Nat
  size : Nat
  ptsVal : Nat
  ptsTs : Nat
  trackId : Nat
  trackType : TrackType
  timescale : Nat
deriving DecidableEq, Repr

/-- `parse_hdlr_box` (src/c/mp4.c, lines 129-150): read the handler FourCC
at box offset + 16 and classify it; a short read yields
`TRACK_TYPE_UNKNOWN`. -/
def parseHdlr (f : List Nat) (off : Nat) : TrackType :=
  match readU32 f (off + 16) with
  | none => .unknown
  | some h =>
    if h = handlerVide then .video
    else if h = handlerSoun then .audio
    else .unknown

/-- Read `n` consecutive big-endian `uint32_t` values starting at `pos`;
`none` models the first short `fread` (the C loops then return -1, and
`mp4_open` discards the partially filled context). -/
def readU32List (f : List Nat) (pos : Nat) : Nat → Option (List Nat)
  | 0 => some []
  | Nat.succ n => do
    let v ← readU32 f pos
    let r ← readU32List f (pos + 4) n
    pure (v :: r)

/-- `parse_stsz_box` (src/c/mp4.c, lines 155-198).  Payload layout after
the 8-byte box header: 4 bytes version/flags, `sample_size` u32,
`sample_count` u32, then (only if `sample_size == 0`) `sample_count`
per-sample u32 sizes.  The C code then `malloc`s `sample_count * 4` bytes —
a size taken straight from the file with no bound against the file size;
the model assumes the allocation succeeds. -/
def parseStsz (f : List Nat) (c : MP4Ctx) (off : Nat) : Option MP4Ctx := do
  let ssz ← readU32 f (off + 12)
  let cnt ← readU32 f (off + 16)
  if ssz = 0 then do
    let entries ← readU32List f (off + 20) cnt
    pure { c with sampleCount := cnt, sampleSizes := some entries }
  else
    pure { c with sampleCount := cnt, sampleSizes := some (List.replicate cnt ssz) }

/-- `parse_stco_box` (src/c/mp4.c, lines 201-224): read `entry_count` u32
chunk offsets into `sample_offsets`.  Note that `sample_count` is NOT
touched and no comparison with the stsz table is made. -/
def parseStco (f : List Nat) (c : MP4Ctx) (off : Nat) : Option MP4Ctx := do
  let ec ← readU32 f (off + 12)
  let entries ← readU32List f (off + 16) ec
  pure { c with sampleOffsets := some entries }

/-- The number-of-PPS tail of `parse_avcC_box` (lines 296-330), entered at
file position `q`: read `numOfPictureParameterSets` (not masked), and when
positive read the first PPS length (rejecting 0 or > 1024) and its bytes. -/
def parseAvcCPps (f : List Nat) (c : MP4Ctx) (q : Nat) : Option MP4Ctx := do
  let np ← readU8 f q
  if np ≠ 0 then do
    let psz ← readU16 f (q + 1)
    if psz = 0 ∨ psz > 1024 then none
    else do
      let pbytes ← readBytesAt f (q + 3) psz
      pure { c with h264 := { c.h264 with pps := some pbytes } }
  else pure c

/-- `parse_avcC_box` (src/c/mp4.c, lines 226-337).  Sequential reads from
box offset + 8: configuration version, profile, compatibility, level, the
lengthSizeMinusOne byte (computed into a local that is never stored), and
`numOfSequenceParameterSets & 0x1F`.  When at least one SPS is declared the
FIRST SPS is length-checked (0 < len ≤ 1024) and stored — but any further
SPS entries are NOT skipped: the byte right after the first SPS is read as
the PPS count. -/
def parseAvcC (f : List Nat) (c : MP4Ctx) (off : Nat) : Option MP4Ctx := do
  let p := off + 8
  let _ver ← readU8 f p
  let _prof ← readU8 f (p + 1)
  let _compat ← readU8 f (p + 2)
  let _lvl ← readU8 f (p + 3)
  let _lsz ← readU8 f (p + 4)
  let ns ← readU8 f (p + 5)
  if ns % 32 ≠ 0 then do
    let ssz ← readU16 f (p + 6)
    if ssz = 0 ∨ ssz > 1024 then none
    else do
      let sbytes ← readBytesAt f (p + 8) ssz
      parseAvcCPps f { c with h264 := { c.h264 with sps := some sbytes } } (p + 8 + ssz)
  else parseAvcCPps f c (p + 6)

/-- `parse_video_info` (src/c/mp4.c, lines 339-426).  From the stsd box at
`so`: entry count at `so+12`; when positive, the sample-description size
(`≥ 78` required) and type at `so+16`/`so+20`, data-reference index at
`so+30`, coded width/height at `so+48`/`so+50`, and after 50 skipped bytes
the `avcC` child box header at `so+102`, which must carry the `avcC`
FourCC and is then parsed in place. -/
def parseVideoInfo (f : List Nat) (c : MP4Ctx) (so : Nat) : Option MP4Ctx := do
  let ec ← readU32 f (so + 12)
  if ec ≠ 0 then do
    let sz ← readU32 f (so + 16)
    let _ty ← readU32 f (so + 20)
    if sz < 78 then none
    else do
      let _dr ← readU16 f (so + 30)
      let w ← readU16 f (so + 48)
      let h ← readU16 f (so + 50)
      let c := { c with h264 := { c.h264 with width := w, height := h } }
      let hd ← readBoxHeader f (so + 102)
      if hd.ty ≠ boxAvcC then none
      else parseAvcC f c (so + 102)
  else pure c

/-- The stsd block of `mp4_open`'s video branch (lines 643-648): if an
`stsd` box is found in the trak's scope, `parse_video_info` must succeed. -/
def stsdStep (f : List Nat) (c : MP4Ctx) (scope : BoxForest) : Option MP4Ctx :=
  match findBoxT scope boxStsd with
  | none => some c
  | some sf => parseVideoInfo f c sf.off

/-- The stsz block (lines 654-659), searching from the `stbl` box. -/
def stszStep (f : List Nat) (c : MP4Ctx) (bscope : BoxForest) : Option MP4Ctx :=
  match findBoxT bscope boxStsz with
  | none => some c
  | some zf => parseStsz f c zf.off

/-- The stco block (lines 661-666), searching from the `stbl` box. -/
def stcoStep (f : List Nat) (c : MP4Ctx) (bscope : BoxForest) : Option MP4Ctx :=
  match findBoxT bscope boxStco with
  | none => some c
  | some bf => parseStco f c bf.off

/-- The stbl block (lines 651-667): when an `stbl` box is found in the
trak's scope, run the stsz and stco parsers against it. -/
def stblStep (f : List Nat) (c : MP4Ctx) (scope : BoxForest) : Option MP4Ctx :=
  match findBoxT scope boxStbl with
  | none => some c
  | some bf => (stszStep f c bf.reforest).bind fun c => stcoStep f c bf.reforest

/-- The body of `mp4_open`'s per-track loop (src/c/mp4.c, lines 633-669)
for the `trak` at position `pos`: find `hdlr` in the scope consisting of
the trak and its later siblings (that is what `find_box_by_type(trak, t)`
searches), classify the track, and for a video track run the stsd/stsz/stco
blocks, each mutating the single shared context. -/
def trakBody (f : List Nat) (c : MP4Ctx) (pos : FoundBox) : Option MP4Ctx :=
  match findBoxT pos.reforest boxHdlr with
  | none => some c
  | some hf =>
    let c2 := { c with trackType := parseHdlr f hf.off }
    if c2.trackType = .video then
      (stsdStep f c2 pos.reforest).bind fun c3 => stblStep f c3 pos.reforest
    else some c2

/-- The `while (trak)` loop of `mp4_open`.  `fuel` only bounds the
recursion for Lean: `find_next_box_by_type` strictly advances in document
order, so the number of iterations is at most the number of boxes, which is
below `f.length + 1` (every box occupies at least 8 bytes). -/
def trakLoop (f : List Nat) : Nat → MP4Ctx → Option FoundBox → Option MP4Ctx
  | _, c, none => some c
  | 0, _, some _ => none
  | Nat.succ fuel, c, some pos => do
    let c ← trakBody f c pos
    trakLoop f fuel c (findNextZ pos.after pos.anc boxTrak)

/-- `mp4_open` (src/c/mp4.c, lines 590-684) for an already-opened file
given as its byte content (the `fopen`-failure path is outside the model).
Builds the box tree over the whole file, requires a non-NULL root and a
`moov` box, then walks every `trak`.  `none` is the `goto error` path
(the context is freed and NULL returned). -/
def mp4Open (f : List Nat) : Option MP4Ctx :=
  let root := createBoxTree f (f.length + 1) 0 f.length 0
  if root = .nil then none
  else
    match findBoxZ root [] boxMoov with
    | none => none
    | some moovPos =>
      trakLoop f (f.length + 1) (emptyCtx f.length)
        (findBoxZ moovPos.reforest moovPos.anc boxTrak)

/-! ## Sample iteration (src/c/mp4.c, lines 706-775) -/

/-- `read_next_sample`.  The outer `Option` marks undefined behaviour: the
C code indexes `sample_offsets[current_sample]` and
`sample_sizes[current_sample]` after checking `current_sample <
sample_count` only — when either allocation is shorter than `sample_count`
the access is out of range, modelled as `none`.  Otherwise the result is
`(status, new context, sample handed to the caller)`.  `malloc` is assumed
to succeed (the `MP4_ERROR_MEMORY` path needs an allocation failure) and
`fseek` on a regular file succeeds, so a short read — which on a regular
file always sets the end-of-file flag — yields `feof(...) ? MP4_ERROR_EOF :
MP4_ERROR_IO = MP4_ERROR_EOF`, with the sample buffer freed (`none` in the
third component). -/
def readNextSample (f : List Nat) (c : MP4Ctx) :
    Option (MP4Status × MP4Ctx × Option Sample) :=
  if c.sampleCount ≤ c.currentSample then some (.eofError, c, none)
  else
    match c.sampleOffsets, c.sampleSizes with
    | some offs, some szs =>
      match offs.get? c.currentSample, szs.get? c.currentSample with
      | some off, some sz =>
        if sz ≤ f.length - off then
          some (.success, { c with currentSample := c.currentSample + 1 },
            some { data := (f.drop off).take sz
                   size := sz
                   ptsVal := c.currentSample
                   ptsTs := c.timescale
                   trackId := 1
                   trackType := c.trackType
                   timescale := c.timescale })
        else some (.eofError, c, none)
      | _, _ => none
    | _, _ => some (.invalidParam, c, none)

/-- Repeatedly call `read_next_sample`, collecting the samples handed out,
until the first non-success status, which is returned with them.  `none`
when a call hits undefined behaviour or when `fuel` runs out (any
`fuel > sampleCount - currentSample` is enough, since every success
increments `current_sample`). -/
def iterateSamples (f : List Nat) (c : MP4Ctx) : Nat → Option (List Sample × MP4Status)
  | 0 => none
  | Nat.succ fuel =>
    match readNextSample f c with
    | none => none
    | some (st, c2, sOpt) =>
      match st, sOpt with
      | .success, some s =>
        (iterateSamples f c2 fuel).map (fun r => (s :: r.1, r.2))
      | .success, none => none
      | _, _ => some ([], st)

/-- The observable part of a yielded sample named by the determinism claim:
`(track_id, size, timestamp)`. -/
def sampleObs (s : Sample) : Nat × Nat × Nat × Nat :=
  (s.trackId, s.size, s.ptsVal, s.ptsTs)

/-! ## Concrete input files

Small synthetic MP4 files used to settle the claims.  `mkBox` builds a
box from its FourCC and payload exactly as the container format defines it
(32-bit big-endian total size, FourCC, payload). -/

/-- The four big-endian bytes of a 32-bit value. -/
def be32L (n : Nat) : List Nat :=
  [n / 16777216 % 256, n / 65536 % 256, n / 256 % 256, n % 256]

/-- The two big-endian bytes of a 16-bit value. -/
def be16L (n : Nat) : List Nat := [n / 256 % 256, n % 256]

/-- A box: size (header included), FourCC, payload. -/
def mkBox (ty : Nat) (payload : List Nat) : List Nat :=
  be32L (payload.length + 8) ++ be32L ty ++ payload

/-- An `hdlr` box whose handler FourCC is `h` (version/flags and
pre_defined zeroed). -/
def hdlrBox (h : Nat) : List Nat :=
  mkBox boxHdlr ([0, 0, 0, 0] ++ [0, 0, 0, 0] ++ be32L h)

/-- An `stsz` box with a fixed `sample_size` and `sample_count`. -/
def stszBox (size count : Nat) : List Nat :=
  mkBox boxStsz ([0, 0, 0, 0] ++ be32L size ++ be32L count)

/-- An `stco` box with the given chunk offsets. -/
def stcoBox (offsets : List Nat) : List Nat :=
  mkBox boxStco ([0, 0, 0, 0] ++ be32L offsets.length ++ offsets.flatMap be32L)

/-- File for claims C1/C2: one video `trak` whose `stsz` declares
`sample_count = 3` (fixed size 5) while `stco` holds only 2 entries —
the mismatch the spec says `open` must reject.  Layout (offsets):
moov@0 { trak@8 { hdlr@16, stbl@36 { stsz@44, stco@64 } } }, then 10
payload bytes at 88; the two stco entries point at 88 and 93. -/
def fMismatch : List Nat :=
  mkBox boxMoov
    (mkBox boxTrak
      (hdlrBox handlerVide ++
        mkBox boxStbl (stszBox 5 3 ++ stcoBox [88, 93])))
  ++ [1, 2, 3, 4, 5, 6, 7, 8, 9, 10]

/-- File for claim C5: one video `trak`, one sample of declared size 50 at
offset 84, but the file ends at byte 88 — the sample is truncated after 4
bytes.  Layout: moov@0 { trak@8 { hdlr@16, stbl@36 { stsz@44, stco@64 } } },
then 4 payload bytes at 84. -/
def fTrunc : List Nat :=
  mkBox boxMoov
    (mkBox boxTrak
      (hdlrBox handlerVide ++
        mkBox boxStbl (stszBox 50 1 ++ stcoBox [84])))
  ++ [9, 9, 9, 9]

/-- File for claim C6: two video `trak`s.  Track 1 declares 2 samples of
size 2, track 2 declares 3 samples of size 3.  Layout: moov@0 { trakA@8 {
hdlr@16, stbl@36 { stsz@44, stco@64 } }, trakB@88 { hdlr@96, stbl@116 {
stsz@124, stco@144 } } }, then 9 payload bytes at 172.  Track 2's samples
sit at offsets 172/175/178. -/
def fTwoTraks : List Nat :=
  mkBox boxMoov
    (mkBox boxTrak
      (hdlrBox handlerVide ++
        mkBox boxStbl (stszBox 2 2 ++ stcoBox [172, 174])) ++
     mkBox boxTrak
      (hdlrBox handlerVide ++
        mkBox boxStbl (stszBox 3 3 ++ stcoBox [172, 175, 178])))
  ++ [10, 11, 12, 20, 21, 22, 30, 31, 32]

/-- An `mdhd` box, version 0: version/flags, creation and modification
times (zeroed), `timescale`, duration (zeroed) — timescale at payload
offset + 12. -/
def mdhdBox (timescale : Nat) : List Nat :=
  mkBox 0x6D646864
    ([0, 0, 0, 0] ++ [0, 0, 0, 0] ++ [0, 0, 0, 0] ++ be32L timescale ++ [0, 0, 0, 0])

/-- File for claim C7: one video `trak` carrying an `mdhd` box that
declares timescale 1000, and two samples of size 2.  Layout: moov@0 {
trak@8 { hdlr@16, mdhd@36, stbl@64 { stsz@72, stco@92 } } }, then 4
payload bytes at 116; samples at offsets 116 and 118. -/
def fMdhd : List Nat :=
  mkBox boxMoov
    (mkBox boxTrak
      (hdlrBox handlerVide ++ mdhdBox 1000 ++
        mkBox boxStbl (stszBox 2 2 ++ stcoBox [116, 118])))
  ++ [65, 66, 67, 68]

/-- The `avcC` payload used for claim C8: configurationVersion 1, profile
66, compatibility 0, level 30, lengthSizeMinusOne byte 0xFF, TWO sequence
parameter sets ([103,1,2,3] and [103,9,9,9], each with a 2-byte big-endian
length 4), then one picture parameter set [104,238] (count byte 1, 2-byte
length 2). -/
def avccPayload : List Nat :=
  [1, 66, 0, 30, 255, 2] ++
  be16L 4 ++ [103, 1, 2, 3] ++
  be16L 4 ++ [103, 9, 9, 9] ++
  [1] ++ be16L 2 ++ [104, 238]

/-- File for claim C8: one video `trak` with a full `stsd`/`avc1`/`avcC`
chain and no sample tables.  The `avc1` sample entry is 86 fixed bytes
(size, FourCC, 6 reserved, data-reference index, 16 reserved, width 64,
height 48, 50 reserved) followed by the `avcC` box.  Layout: moov@0 {
trak@8 { hdlr@16, stsd@36 } }; the avc1 entry starts at 52 and the avcC
box at 138. -/
def fAvcc : List Nat :=
  mkBox boxMoov
    (mkBox boxTrak
      (hdlrBox handlerVide ++
        mkBox boxStsd
          ([0, 0, 0, 0] ++ be32L 1 ++
            (be32L (86 + (mkBox boxAvcC avccPayload).length) ++ be32L 0x61766331 ++
             [0, 0, 0, 0, 0, 0] ++ be16L 1 ++
             List.replicate 16 0 ++ be16L 64 ++ be16L 48 ++
             List.replicate 50 0 ++
             mkBox boxAvcC avccPayload))))

/-! ## The avcC record layout as the spec words it

For the round-trip claim the spec's own description of the record (§4.2:
`numSPS × { u16 length_BE ; length bytes }` followed by `u8 numPPS` and
`numPPS × { u16 length_BE ; length bytes }`) is rendered directly, to be
compared with what `parse_avcC_box` stores.  These two definitions follow
the spec's words, not the C code. -/

/-- Skip `n` parameter sets (2-byte big-endian length + that many bytes
each) inside an avcC payload, starting at payload position `p`. -/
def avccSkipSets (payload : List Nat) : Nat → Nat → Option Nat
  | p, 0 => some p
  | p, Nat.succ n => do
    let hi ← payload.get? p
    let lo ← payload.get? (p + 1)
    avccSkipSets payload (p + 2 + (hi * 256 + lo)) n

/-- The first SPS stored in an avcC payload according to the spec's layout:
byte 5 holds `numSPS` in its low 5 bits; the first set starts at offset 6. -/
def avccSpecFirstSps (payload : List Nat) : Option (List Nat) := do
  let nsb ← payload.get? 5
  if nsb % 32 = 0 then none
  else do
    let hi ← payload.get? 6
    let lo ← payload.get? 7
    let len := hi * 256 + lo
    if 8 + len ≤ payload.length then some ((payload.drop 8).take len) else none

/-- The first PPS stored in an avcC payload according to the spec's layout:
after all `numSPS` sets comes `u8 numPPS`, then the first PPS set. -/
def avccSpecFirstPps (payload : List Nat) : Option (List Nat) := do
  let nsb ← payload.get? 5
  let p ← avccSkipSets payload 6 (nsb % 32)
  let np ← payload.get? p
  if np = 0 then none
  else do
    let hi ← payload.get? (p + 1)
    let lo ← payload.get? (p + 2)
    let len := hi * 256 + lo
    if p + 3 + len ≤ payload.length then some ((payload.drop (p + 3)).take len)
    else none

/-! ## Contexts and samples produced on the concrete files

Checked against the embedding by `decide` in the theorems below; spelled
out so that witnesses can instantiate universally quantified theorems. -/

/-- The context `mp4_open` produces on `fMdhd`. -/
def ctxMd : MP4Ctx :=
  { fileSize := 120
    sampleCount := 2
    currentSample := 0
    trackType := .video
    timescale := 0
    h264 := { sps := none, pps := none, width := 0, height := 0 }
    sampleOffsets := some [116, 118]
    sampleSizes := some [2, 2] }

/-- `ctxMd` after one successful `read_next_sample`. -/
def ctxMd1 : MP4Ctx := { ctxMd with currentSample := 1 }

/-- `ctxMd1` after another successful `read_next_sample`. -/
def ctxMd2 : MP4Ctx := { ctxMd with currentSample := 2 }

/-- The first sample yielded on `fMdhd`. -/
def sampMd1 : Sample :=
  { data := [65, 66], size := 2, ptsVal := 0, ptsTs := 0, trackId := 1
    trackType := .video, timescale := 0 }

/-- The second sample yielded on `fMdhd`. -/
def sampMd2 : Sample :=
  { data := [67, 68], size := 2, ptsVal := 1, ptsTs := 0, trackId := 1
    trackType := .video, timescale := 0 }

/-- The context `mp4_open` produces on `fTwoTraks` — only the second
(last-parsed) video track's tables survive. -/
def ctxTT : MP4Ctx :=
  { fileSize := 181
    sampleCount := 3
    currentSample := 0
    trackType := .video
    timescale := 0
    h264 := { sps := none, pps := none, width := 0, height := 0 }
    sampleOffsets := some [172, 175, 178]
    sampleSizes := some [3, 3, 3] }

/-! ## Helper lemmas -/

set_option maxRecDepth 100000

theorem golombTail_exhausted_val (d : List Nat) :
    ∀ (k n off code : Nat), (golombTail d n off code k).2.2 = true →
      (golombTail d n off code k).1 = 0 := by
  intro k
  induction k with
  | zero => intro n off code h; simp [golombTail] at h
  | succ k ih =>
    intro n off code h
    rw [golombTail] at h ⊢
    split at h
    · simp [*]
    · rw [if_neg (by assumption)]
      exact ih _ _ _ h

/-! ## Claims -/

/-- Claim C1 (code_bug): the spec demands that no input, however malformed,
causes an out-of-range read or an allocation above the file size, and that
after a successful open `read_next_sample` never indexes `sample_offsets` or
`sample_sizes` past their allocated length.  On `fMismatch` — accepted by
`mp4_open` with `sample_count = 3` but a 2-entry `sample_offsets`
allocation — the first two calls succeed and the third evaluates
`sample_offsets[2]`, one element past the allocation: the embedding's
undefined-behaviour marker (`none`).  (`parse_stsz_box` likewise mallocs
`sample_count * 4` bytes for a count taken straight from the file, with no
bound against the file size.) -/
theorem c1_out_of_range_read :
    (mp4Open fMismatch).map
        (fun c => (c.sampleCount, c.sampleOffsets.map List.length,
          c.sampleSizes.map List.length)) = some (3, some 2, some 3) ∧
    ((mp4Open fMismatch).bind (readNextSample fMismatch)).map (fun r => r.1)
      = some .success ∧
    (((mp4Open fMismatch).bind (readNextSample fMismatch)).bind
        (fun r => readNextSample fMismatch r.2.1)).map (fun r => r.1)
      = some .success ∧
    ((((mp4Open fMismatch).bind (readNextSample fMismatch)).bind
        (fun r => readNextSample fMismatch r.2.1)).bind
        (fun r => readNextSample fMismatch r.2.1)) = none := by
  decide

/-- Claim C2 (code_bug): the spec says `mp4_open` fails with MalformedTable
whenever `stco.entry_count ≠ stsz.sample_count`, and in particular for
`stsz.sample_count = 3` with `stco.entry_count = 2`.  `fMismatch` declares
exactly that mismatch (`sample_count` u32 at byte 60 is 3, `entry_count`
u32 at byte 76 is 2), yet `mp4_open` succeeds, returning a context with
`sample_count = 3` over a 2-entry offset table: no comparison between the
two tables exists anywhere in the source. -/
theorem c2_open_accepts_table_mismatch :
    readU32 fMismatch 60 = some 3 ∧
    readU32 fMismatch 76 = some 2 ∧
    (3 : Nat) ≠ 2 ∧
    (mp4Open fMismatch).map
        (fun c => (c.sampleCount, c.sampleOffsets.map List.length))
      = some (3, some 2) := by
  decide

/-- Claim C3 (code_bug): the spec says SPS parsing skips the 1-byte NAL
header before reading `profile_idc`, and that an SPS with
`profile_idc = 66`, `pic_width_in_mbs_minus1 = ue(39)`,
`pic_height_in_map_units_minus1 = ue(29)`, `frame_mbs_only_flag = 1`
yields 640×480.  `parse_sps` instead reads `profile_idc` from `data[0]` —
the NAL header byte 0x67 = 103 — and starts its bit cursor at bit 24
rather than 32.  On the header-led SPS
`[0x67, 0x42, 0x00, 0x28, 0xF8, 0x14, 0x07, 0xB2]` (profile 66, level 40,
the listed field values, a conforming encoder's output) it reports profile
103 and 16×32.  The second conjunct shows the same bytes with level 30,
where the one-byte misalignment happens to resynchronise and the
dimensions come out right while `profile_idc` is still the header byte:
the header is never skipped. -/
theorem c3_sps_header_not_skipped :
    parseSps [0x67, 0x42, 0x00, 0x28, 0xF8, 0x14, 0x07, 0xB2]
      = some (103, 0, 16, 32) ∧
    parseSps [0x67, 0x42, 0x00, 0x1E, 0xF8, 0x14, 0x07, 0xB2]
      = some (103, 0, 640, 480) ∧
    (103 : Nat) ≠ 66 ∧ (16 : Nat) ≠ 640 ∧ (32 : Nat) ≠ 480 := by
  decide

/-- Claim C4 counterexample: the claim says `read_golomb` fails with a
parse error at end of buffer or past 31 leading zeros and never silently
returns a value.  On the exhausted buffer `[0x00]` the reader takes its
early-return path (third component `true`) and hands back the value 0 —
bit-for-bit the same value a successful parse of `ue(0)` on `[0x80]`
produces — and on a buffer demanding 32 leading zeros it happily returns
`2^32 - 2` with no failure at all. -/
theorem c4_counterexample :
    readGolomb [0x00] 0 = (0, 8, true) ∧
    readGolomb [0x80] 0 = (0, 1, false) ∧
    readGolomb [0, 0, 0, 0, 255, 255, 255, 255, 255] 0
      = (4294967294, 65, false) := by
  decide

/-- Claim C4 (corrected): whenever the buffer is exhausted before the
Exp-Golomb value is complete — either early-return path of `read_golomb` —
the function silently returns the value 0, indistinguishable from a
successfully decoded `ue(0)`; there is no error channel and no cap of 31
on the leading zeros. -/
theorem c4_exhausted_returns_zero (d : List Nat) (off : Nat)
    (h : (readGolomb d off).2.2 = true) : (readGolomb d off).1 = 0 := by
  simp only [readGolomb] at h ⊢
  split at h
  · simp [*]
  · rw [if_neg (by assumption)]
    exact golombTail_exhausted_val d _ _ _ _ h

/-- Witness for `c4_exhausted_returns_zero` at the exhausted buffer
`[0x00]`. -/
theorem c4_witness : (readGolomb [0x00] 0).1 = 0 :=
  c4_exhausted_returns_zero [0x00] 0 (by decide)

/-- Claim C5 (code_bug): the spec says a short read — including end of
file in the middle of a sample — is IoError, and End is returned only once
every sample has been yielded.  On `fTrunc`, accepted by open with one
declared 50-byte sample at offset 84 in an 88-byte file, the very first
`read_next_sample` comes up short and returns `feof(...) ? MP4_ERROR_EOF :
MP4_ERROR_IO`, i.e. `MP4_ERROR_EOF` — the End code — with no sample ever
yielded. -/
theorem c5_truncated_sample_reports_end :
    fTrunc.length = 88 ∧
    (mp4Open fTrunc).map
        (fun c => (c.sampleCount, c.sampleOffsets, c.sampleSizes))
      = some (1, some [84], some [50]) ∧
    ((mp4Open fTrunc).bind (readNextSample fTrunc)).map
        (fun r => (r.1, r.2.1.currentSample, r.2.2))
      = some (.eofError, 0, none) ∧
    MP4Status.eofError ≠ .ioError := by
  decide

/-! ## Open never touches the iteration cursor or the timescale

`mp4_open` zero-initialises `current_sample` and `timescale` and no parse
function ever assigns either field (in particular, nothing in the source
reads an `mdhd` box).  These preservation lemmas make that explicit. -/

theorem parseStsz_pres (f : List Nat) (c : MP4Ctx) (off : Nat) (c2 : MP4Ctx)
    (h : parseStsz f c off = some c2) :
    c2.currentSample = c.currentSample ∧ c2.timescale = c.timescale := by
  simp only [parseStsz, Option.bind_eq_bind, Option.pure_def, Option.bind_eq_some] at h
  obtain ⟨ssz, -, cnt, -, h⟩ := h
  split at h
  · simp only [Option.bind_eq_some, Option.some.injEq] at h
    obtain ⟨e, -, h⟩ := h
    subst h
    exact ⟨rfl, rfl⟩
  · simp only [Option.some.injEq] at h
    subst h
    exact ⟨rfl, rfl⟩

theorem parseStco_pres (f : List Nat) (c : MP4Ctx) (off : Nat) (c2 : MP4Ctx)
    (h : parseStco f c off = some c2) :
    c2.currentSample = c.currentSample ∧ c2.timescale = c.timescale := by
  simp only [parseStco, Option.bind_eq_bind, Option.pure_def, Option.bind_eq_some,
    Option.some.injEq] at h
  obtain ⟨ec, -, e, -, h⟩ := h
  subst h
  exact ⟨rfl, rfl⟩

theorem parseAvcCPps_pres (f : List Nat) (c : MP4Ctx) (q : Nat) (c2 : MP4Ctx)
    (h : parseAvcCPps f c q = some c2) :
    c2.currentSample = c.currentSample ∧ c2.timescale = c.timescale := by
  simp only [parseAvcCPps, Option.bind_eq_bind, Option.pure_def, Option.bind_eq_some] at h
  obtain ⟨np, -, h⟩ := h
  split at h
  · simp only [Option.bind_eq_some] at h
    obtain ⟨psz, -, h⟩ := h
    split at h
    · exact absurd h (by simp)
    · simp only [Option.bind_eq_some, Option.some.injEq] at h
      obtain ⟨p, -, h⟩ := h
      subst h
      exact ⟨rfl, rfl⟩
  · simp only [Option.some.injEq] at h
    subst h
    exact ⟨rfl, rfl⟩

theorem parseAvcC_pres (f : List Nat) (c : MP4Ctx) (off : Nat) (c2 : MP4Ctx)
    (h : parseAvcC f c off = some c2) :
    c2.currentSample = c.currentSample ∧ c2.timescale = c.timescale := by
  simp only [parseAvcC, Option.bind_eq_bind, Option.pure_def, Option.bind_eq_some] at h
  obtain ⟨v, -, pr, -, cp, -, lv, -, ls, -, ns, -, h⟩ := h
  split at h
  · simp only [Option.bind_eq_some] at h
    obtain ⟨ssz, -, h⟩ := h
    split at h
    · exact absurd h (by simp)
    · simp only [Option.bind_eq_some] at h
      obtain ⟨s, -, h⟩ := h
      have p := parseAvcCPps_pres _ _ _ _ h
      exact ⟨p.1, p.2⟩
  · exact parseAvcCPps_pres _ _ _ _ h

set_option maxHeartbeats 1000000 in
theorem parseVideoInfo_pres (f : List Nat) (c : MP4Ctx) (so : Nat) (c2 : MP4Ctx)
    (h : parseVideoInfo f c so = some c2) :
    c2.currentSample = c.currentSample ∧ c2.timescale = c.timescale := by
  simp only [parseVideoInfo, Option.bind_eq_bind, Option.pure_def, Option.bind_eq_some] at h
  obtain ⟨ec, -, h⟩ := h
  split at h
  · simp only [Option.bind_eq_some] at h
    obtain ⟨sz, -, ty, -, h⟩ := h
    split at h
    · exact absurd h (by simp)
    · simp only [Option.bind_eq_some] at h
      obtain ⟨dr, -, w, -, hh, -, hd, -, h⟩ := h
      split at h
      · exact absurd h (by simp)
      · have p := parseAvcC_pres _ _ _ _ h
        exact ⟨p.1, p.2⟩
  · simp only [Option.some.injEq] at h
    subst h
    exact ⟨rfl, rfl⟩

theorem stsdStep_pres (f : List Nat) (c : MP4Ctx) (scope : BoxForest) (c2 : MP4Ctx)
    (h : stsdStep f c scope = some c2) :
    c2.currentSample = c.currentSample ∧ c2.timescale = c.timescale := by
  unfold stsdStep at h
  split at h
  · simp only [Option.some.injEq] at h
    subst h
    exact ⟨rfl, rfl⟩
  · exact parseVideoInfo_pres _ _ _ _ h

theorem stszStep_pres (f : List Nat) (c : MP4Ctx) (bscope : BoxForest) (c2 : MP4Ctx)
    (h : stszStep f c bscope = some c2) :
    c2.currentSample = c.currentSample ∧ c2.timescale = c.timescale := by
  unfold stszStep at h
  split at h
  · simp only [Option.some.injEq] at h
    subst h
    exact ⟨rfl, rfl⟩
  · exact parseStsz_pres _ _ _ _ h

theorem stcoStep_pres (f : List Nat) (c : MP4Ctx) (bscope : BoxForest) (c2 : MP4Ctx)
    (h : stcoStep f c bscope = some c2) :
    c2.currentSample = c.currentSample ∧ c2.timescale = c.timescale := by
  unfold stcoStep at h
  split at h
  · simp only [Option.some.injEq] at h
    subst h
    exact ⟨rfl, rfl⟩
  · exact parseStco_pres _ _ _ _ h

theorem stblStep_pres (f : List Nat) (c : MP4Ctx) (scope : BoxForest) (c2 : MP4Ctx)
    (h : stblStep f c scope = some c2) :
    c2.currentSample = c.currentSample ∧ c2.timescale = c.timescale := by
  unfold stblStep at h
  split at h
  · simp only [Option.some.injEq] at h
    subst h
    exact ⟨rfl, rfl⟩
  · simp only [Option.bind_eq_some] at h
    obtain ⟨c3, h3, h⟩ := h
    have p3 := stszStep_pres _ _ _ _ h3
    have p2 := stcoStep_pres _ _ _ _ h
    exact ⟨p2.1.trans p3.1, p2.2.trans p3.2⟩

theorem trakBody_pres (f : List Nat) (c : MP4Ctx) (pos : FoundBox) (c2 : MP4Ctx)
    (h : trakBody f c pos = some c2) :
    c2.currentSample = c.currentSample ∧ c2.timescale = c.timescale := by
  simp only [trakBody] at h
  split at h
  · simp only [Option.some.injEq] at h
    subst h
    exact ⟨rfl, rfl⟩
  · split at h
    · simp only [Option.bind_eq_some] at h
      obtain ⟨c3, h3, h⟩ := h
      have p3 := stsdStep_pres _ _ _ _ h3
      have p2 := stblStep_pres _ _ _ _ h
      exact ⟨p2.1.trans p3.1, p2.2.trans p3.2⟩
    · simp only [Option.some.injEq] at h
      subst h
      exact ⟨rfl, rfl⟩

theorem trakLoop_pres (f : List Nat) :
    ∀ (fuel : Nat) (c : MP4Ctx) (pos : Option FoundBox) (c2 : MP4Ctx),
      trakLoop f fuel c pos = some c2 →
      c2.currentSample = c.currentSample ∧ c2.timescale = c.timescale := by
  intro fuel
  induction fuel with
  | zero =>
    intro c pos c2 h
    cases pos with
    | none =>
      simp only [trakLoop, Option.some.injEq] at h
      subst h
      exact ⟨rfl, rfl⟩
    | some p => simp [trakLoop] at h
  | succ fuel ih =>
    intro c pos c2 h
    cases pos with
    | none =>
      simp only [trakLoop, Option.some.injEq] at h
      subst h
      exact ⟨rfl, rfl⟩
    | some p =>
      simp only [trakLoop, Option.bind_eq_bind, Option.pure_def, Option.bind_eq_some] at h
      obtain ⟨c3, h3, h⟩ := h
      have p3 := trakBody_pres _ _ _ _ h3
      have p2 := ih _ _ _ h
      exact ⟨p2.1.trans p3.1, p2.2.trans p3.2⟩

/-- After a successful `mp4_open` the cursor is at 0 and — because nothing
in the source ever reads an `mdhd` box or assigns the field — the
timescale is still its `memset` value 0. -/
theorem mp4Open_state (f : List Nat) (c : MP4Ctx) (h : mp4Open f = some c) :
    c.currentSample = 0 ∧ c.timescale = 0 := by
  simp only [mp4Open] at h
  split at h
  · exact absurd h (by simp)
  · split at h
    · exact absurd h (by simp)
    · exact trakLoop_pres _ _ _ _ _ h

/-- A successful `read_next_sample` advances `current_sample` by exactly 1,
leaves every other context field alone, and stamps the sample with
`pts = (current_sample, timescale)`, `track_id = 1` and the context's track
type and timescale. -/
theorem readNextSample_success (f : List Nat) (c c2 : MP4Ctx) (s : Sample)
    (h : readNextSample f c = some (.success, c2, some s)) :
    c2 = { c with currentSample := c.currentSample + 1 } ∧
    s.ptsVal = c.currentSample ∧ s.ptsTs = c.timescale ∧
    s.trackId = 1 ∧ s.timescale = c.timescale := by
  unfold readNextSample at h
  split at h
  · simp at h
  · split at h
    · split at h
      · split at h
        · simp only [Option.some.injEq, Prod.mk.injEq] at h
          obtain ⟨-, h2, h3⟩ := h
          subst h2
          subst h3
          exact ⟨rfl, rfl, rfl, rfl, rfl⟩
        · simp at h
      · simp at h
    · simp at h

/-- One `read_next_sample` call on a context whose tables cover
`current_sample < sample_count` and whose sample range lies inside the
file: the success case, spelled out. -/
theorem readNextSample_step (f : List Nat) (c : MP4Ctx) (offs szs : List Nat)
    (ho : c.sampleOffsets = some offs) (hs : c.sampleSizes = some szs)
    (hlt : c.currentSample < c.sampleCount)
    (hol : c.sampleCount ≤ offs.length) (hsl : c.sampleCount ≤ szs.length)
    (hcond : szs.getD c.currentSample 0 ≤ f.length - offs.getD c.currentSample 0) :
    readNextSample f c = some (.success,
      { c with currentSample := c.currentSample + 1 },
      some { data := (f.drop (offs.getD c.currentSample 0)).take (szs.getD c.currentSample 0)
             size := szs.getD c.currentSample 0
             ptsVal := c.currentSample
             ptsTs := c.timescale
             trackId := 1
             trackType := c.trackType
             timescale := c.timescale }) := by
  have hoff : offs.get? c.currentSample = some (offs.getD c.currentSample 0) := by
    rw [List.getD_eq_getElem?_getD, List.get?_eq_getElem?,
      List.getElem?_eq_getElem (by omega)]
    simp
  have hsz : szs.get? c.currentSample = some (szs.getD c.currentSample 0) := by
    rw [List.getD_eq_getElem?_getD, List.get?_eq_getElem?,
      List.getElem?_eq_getElem (by omega)]
    simp
  have hn : ¬ (c.sampleCount ≤ c.currentSample) := by omega
  unfold readNextSample
  rw [if_neg hn, ho, hs]
  simp only [hoff, hsz]
  rw [if_pos hcond]

/-- Iterating with enough fuel on a context whose tables cover every
remaining sample yields exactly `sampleCount - currentSample` samples and
then the End status `MP4_ERROR_EOF`. -/
theorem iterateYieldsAll (f : List Nat) :
    ∀ (k : Nat) (c : MP4Ctx) (offs szs : List Nat),
      c.sampleOffsets = some offs → c.sampleSizes = some szs →
      c.sampleCount - c.currentSample = k →
      c.sampleCount ≤ offs.length → c.sampleCount ≤ szs.length →
      (∀ i, i < c.sampleCount → szs.getD i 0 ≤ f.length - offs.getD i 0) →
      (iterateSamples f c (k + 1)).map (fun r => (r.1.length, r.2)) =
        some (k, .eofError) := by
  intro k
  induction k with
  | zero =>
    intro c offs szs ho hs hk hol hsl hb
    have hcc : c.sampleCount ≤ c.currentSample := by omega
    have hread : readNextSample f c = some (.eofError, c, none) := by
      unfold readNextSample
      rw [if_pos hcc]
    simp [iterateSamples, hread]
  | succ k ih =>
    intro c offs szs ho hs hk hol hsl hb
    have hlt : c.currentSample < c.sampleCount := by omega
    have hread := readNextSample_step f c offs szs ho hs hlt hol hsl
      (hb c.currentSample hlt)
    have ih2 := ih { c with currentSample := c.currentSample + 1 } offs szs
      (by simpa using ho) (by simpa using hs) (by simp; omega)
      (by simpa using hol) (by simpa using hsl) (by simpa using hb)
    obtain ⟨r, hr, hro⟩ := Option.map_eq_some'.mp ih2
    show (iterateSamples f c (k + 1 + 1)).map (fun r => (r.1.length, r.2))
      = some (k + 1, .eofError)
    rw [iterateSamples, hread]
    simp only [hr, Option.map_some']
    simp only [Prod.mk.injEq] at hro ⊢
    simp [hro.1, hro.2]

/-- Claim C6 counterexample: on `fTwoTraks` — accepted by open, with two
video tracks declaring 2 and 3 samples (the `stsz` sample counts at bytes
60 and 140) — iteration yields 3 samples, all labelled `track_id = 1`, and
then End: only the last-parsed track's table survives, so the total is 3,
not the claimed sum 2 + 3 = 5, and track 1's samples are never yielded. -/
theorem c6_counterexample :
    readU32 fTwoTraks 60 = some 2 ∧
    readU32 fTwoTraks 140 = some 3 ∧
    ((mp4Open fTwoTraks).bind (fun c => iterateSamples fTwoTraks c 4)).map
        (fun r => (r.1.length, r.1.map (fun s => s.trackId), r.2))
      = some (3, [1, 1, 1], .eofError) ∧
    (3 : Nat) ≠ 2 + 3 := by
  decide

/-- Claim C6 (corrected): `mp4_open` keeps a single sample table — each
video track's `stsz`/`stco` parse overwrites the previous one — so for
every file accepted by open whose (final) tables cover `sample_count`
entries that all lie inside the file, iteration yields exactly
`sample_count` samples (the last-parsed video track's), in index order,
and then End; samples of earlier tracks are not yielded. -/
theorem c6_amended (f : List Nat) (c : MP4Ctx) (offs szs : List Nat)
    (hopen : mp4Open f = some c)
    (ho : c.sampleOffsets = some offs) (hs : c.sampleSizes = some szs)
    (hol : c.sampleCount ≤ offs.length) (hsl : c.sampleCount ≤ szs.length)
    (hb : ∀ i, i < c.sampleCount → szs.getD i 0 ≤ f.length - offs.getD i 0) :
    (iterateSamples f c (c.sampleCount + 1)).map (fun r => (r.1.length, r.2))
      = some (c.sampleCount, .eofError) := by
  have h0 := (mp4Open_state f c hopen).1
  exact iterateYieldsAll f c.sampleCount c offs szs ho hs (by omega) hol hsl hb

/-- Witness for `c6_amended` on the concrete file `fTwoTraks`. -/
theorem c6_witness :
    (iterateSamples fTwoTraks ctxTT (ctxTT.sampleCount + 1)).map
        (fun r => (r.1.length, r.2)) = some (ctxTT.sampleCount, .eofError) :=
  c6_amended fTwoTraks ctxTT [172, 175, 178] [3, 3, 3]
    (by decide) (by decide) (by decide) (by decide) (by decide) (by decide)

/-- Claim C7 counterexample: `fMdhd` carries an `mdhd` box (at offset 36)
with version 0 and declared timescale 1000 at payload offset +12, and is
accepted by open; yet the first sample is stamped `pts = (0, 0)` and
`timescale = 0`: nothing in the source reads `mdhd`, so the track's
declared timescale never reaches the samples. -/
theorem c7_counterexample :
    readU8 fMdhd 44 = some 0 ∧
    readU32 fMdhd 56 = some 1000 ∧
    ((mp4Open fMdhd).bind (readNextSample fMdhd)).map
        (fun r => (r.1, r.2.2.map (fun s => (s.ptsVal, s.ptsTs, s.timescale))))
      = some (.success, some (0, 0, 0)) ∧
    (0 : Nat) ≠ 1000 := by
  decide

/-- Claim C7 (corrected): each sample's timestamp is the pair
`(sample_index_within_track, ctx.timescale)` — but `ctx.timescale` is never
assigned anywhere in the source (no `mdhd` box is ever read), so after open
it is 0; consecutive successful samples carry timestamp values that differ
by exactly 1 and share that same (zero) timescale. -/
theorem c7_amended (f : List Nat) (c c0 c1 c2 : MP4Ctx) (s1 s2 : Sample)
    (hopen : mp4Open f = some c)
    (h1 : readNextSample f c0 = some (.success, c1, some s1))
    (h2 : readNextSample f c1 = some (.success, c2, some s2)) :
    c.timescale = 0 ∧
    s1.ptsVal = c0.currentSample ∧ s1.ptsTs = c0.timescale ∧
    s2.ptsVal = s1.ptsVal + 1 ∧ s2.ptsTs = s1.ptsTs := by
  obtain ⟨hc1, hs1v, hs1t, -, -⟩ := readNextSample_success f c0 c1 s1 h1
  obtain ⟨-, hs2v, hs2t, -, -⟩ := readNextSample_success f c1 c2 s2 h2
  subst hc1
  refine ⟨(mp4Open_state f c hopen).2, hs1v, hs1t, ?_, ?_⟩
  · rw [hs2v, hs1v]
  · rw [hs2t, hs1t]

/-- Witness for `c7_amended` on `fMdhd` and its two samples. -/
theorem c7_witness :
    ctxMd.timescale = 0 ∧
    sampMd1.ptsVal = ctxMd.currentSample ∧ sampMd1.ptsTs = ctxMd.timescale ∧
    sampMd2.ptsVal = sampMd1.ptsVal + 1 ∧ sampMd2.ptsTs = sampMd1.ptsTs :=
  c7_amended fMdhd ctxMd ctxMd ctxMd1 ctxMd2 sampMd1 sampMd2
    (by decide) (by decide) (by decide)

/-- Claim C9 (confirmed): the demuxer's observable output is a function of
the file bytes alone — `mp4_open` is deterministic (two opens of the same
bytes return the same context), and iterating either context produces the
same sequence of `(track_id, size, timestamp)` observables. -/
theorem c9_deterministic (f : List Nat) (c1 c2 : MP4Ctx) (n : Nat)
    (h1 : mp4Open f = some c1) (h2 : mp4Open f = some c2) :
    (iterateSamples f c1 n).map (fun r => (r.1.map sampleObs, r.2))
      = (iterateSamples f c2 n).map (fun r => (r.1.map sampleObs, r.2)) := by
  rw [h1] at h2
  cases h2
  rfl

/-- Witness for `c9_deterministic` on `fTwoTraks`. -/
theorem c9_witness :
    (iterateSamples fTwoTraks ctxTT 4).map (fun r => (r.1.map sampleObs, r.2))
      = (iterateSamples fTwoTraks ctxTT 4).map (fun r => (r.1.map sampleObs, r.2)) :=
  c9_deterministic fTwoTraks ctxTT ctxTT 4 (by decide) (by decide)

/-- Claim C10 (confirmed): whenever `read_next_sample` returns anything
but `MP4_SUCCESS`, the context is unchanged — in particular
`current_sample` is not advanced, so the next call retries the same
sample — and no sample buffer is handed to the caller (any buffer
allocated for the sample was freed before returning); `current_sample`
advances, by exactly 1 and with no other field touched, only on
`MP4_SUCCESS`. -/
theorem c10_error_contract (f : List Nat) (c : MP4Ctx) (st : MP4Status)
    (c2 : MP4Ctx) (s : Option Sample)
    (h : readNextSample f c = some (st, c2, s)) :
    (st ≠ .success → c2 = c ∧ s = none) ∧
    (st = .success →
      c2 = { c with currentSample := c.currentSample + 1 } ∧ s.isSome = true) := by
  unfold readNextSample at h
  split at h
  · simp only [Option.some.injEq, Prod.mk.injEq] at h
    obtain ⟨h1, h2, h3⟩ := h
    subst h1; subst h2; subst h3
    exact ⟨fun _ => ⟨rfl, rfl⟩, fun hx => absurd hx (by decide)⟩
  · split at h
    · split at h
      · split at h
        · simp only [Option.some.injEq, Prod.mk.injEq] at h
          obtain ⟨h1, h2, h3⟩ := h
          subst h1; subst h2; subst h3
          exact ⟨fun hx => absurd rfl hx, fun _ => ⟨rfl, rfl⟩⟩
        · simp only [Option.some.injEq, Prod.mk.injEq] at h
          obtain ⟨h1, h2, h3⟩ := h
          subst h1; subst h2; subst h3
          exact ⟨fun _ => ⟨rfl, rfl⟩, fun hx => absurd hx (by decide)⟩
      · simp at h
    · simp only [Option.some.injEq, Prod.mk.injEq] at h
      obtain ⟨h1, h2, h3⟩ := h
      subst h1; subst h2; subst h3
      exact ⟨fun _ => ⟨rfl, rfl⟩, fun hx => absurd hx (by decide)⟩

/-- Witness for `c10_error_contract`: the first call on `fMdhd` succeeds
and advances the cursor by exactly 1. -/
theorem c10_witness :
    (MP4Status.success ≠ .success → ctxMd1 = ctxMd ∧ (some sampMd1 : Option Sample) = none) ∧
    (MP4Status.success = .success →
      ctxMd1 = { ctxMd with currentSample := ctxMd.currentSample + 1 } ∧
      (some sampMd1).isSome = true) :=
  c10_error_contract fMdhd ctxMd .success ctxMd1 (some sampMd1) (by decide)

/-! ## Positional reads over concatenated files (for the avcC round trip) -/

theorem get?_append_len (a l : List Nat) (k n : Nat) (hn : n = a.length + k) :
    (a ++ l).get? n = l.get? k := by
  subst hn
  rw [List.get?_eq_getElem?, List.get?_eq_getElem?,
    List.getElem?_append_right (by omega)]
  congr 1
  omega

theorem readBytesAt_append (a b r : List Nat) (n m : Nat)
    (hn : n = a.length) (hm : m = b.length) :
    readBytesAt (a ++ (b ++ r)) n m = some b := by
  subst hn
  subst hm
  unfold readBytesAt
  rw [if_pos (by simp)]
  rw [List.drop_left, List.take_left]

theorem readU16_append (a : List Nat) (x y : Nat) (r : List Nat) (n : Nat)
    (hn : n = a.length) :
    readU16 (a ++ ([x, y] ++ r)) n = some (x * 256 + y) := by
  unfold readU16
  rw [readBytesAt_append a [x, y] r n 2 hn rfl]
  rfl

/-- Claim C8 counterexample: `fAvcc` is accepted by open and its avcC
record — per the spec's own layout — stores two SPS sets and one PPS set
`[0x68, 0xEE]`; the demuxer exposes the first SPS verbatim but `pps` stays
NULL: `parse_avcC_box` never skips the second SPS, reads the high byte of
its length field (0) as the PPS count, and stores no PPS at all, so the
exposed PPS bytes do not equal the first stored PPS. -/
theorem c8_counterexample :
    avccSpecFirstSps avccPayload = some [103, 1, 2, 3] ∧
    avccSpecFirstPps avccPayload = some [104, 238] ∧
    (mp4Open fAvcc).map (fun c => (c.h264.sps, c.h264.pps))
      = some (some [103, 1, 2, 3], none) ∧
    (none : Option (List Nat)) ≠ some [104, 238] := by
  decide

/-- Claim C8 (corrected): when the avcC record declares exactly ONE SPS,
`parse_avcC_box` stores the SPS bytes and the first PPS bytes verbatim: for
every file laid out as `prefix ++ [version, profile, compat, level,
lengthSize, 1(=numSPS), spsLenHi, spsLenLo] ++ SPS ++ [numPPS, ppsLenHi,
ppsLenLo] ++ PPS ++ rest` with the box at `off` (payload at `off + 8 =
prefix.length`), in-range lengths and a positive PPS count, the parse
succeeds with `sps := SPS` and `pps := PPS`, byte for byte. -/
theorem c8_amended (pre S P post : List Nat) (c : MP4Ctx)
    (off v pr cp lv ls np hi lo phi plo : Nat)
    (hoff : off + 8 = pre.length)
    (hsl : hi * 256 + lo = S.length) (hs0 : S.length ≠ 0) (hs1 : S.length ≤ 1024)
    (hpl : phi * 256 + plo = P.length) (hp0 : P.length ≠ 0) (hp1 : P.length ≤ 1024)
    (hnp : np ≠ 0) :
    parseAvcC (pre ++ [v, pr, cp, lv, ls, 1, hi, lo] ++ S ++ [np, phi, plo] ++ P ++ post) c off
      = some { c with h264 := { c.h264 with sps := some S, pps := some P } } := by
  set F := pre ++ [v, pr, cp, lv, ls, 1, hi, lo] ++ S ++ [np, phi, plo] ++ P ++ post with hF
  have hassoc : F = pre ++ ([v, pr, cp, lv, ls, 1, hi, lo] ++
      (S ++ ([np, phi, plo] ++ (P ++ post)))) := by
    simp [hF, List.append_assoc]
  have e0 : readU8 F (off + 8) = some v := by
    rw [hassoc]
    unfold readU8
    rw [get?_append_len pre _ 0 _ (by omega)]
    rfl
  have e1 : readU8 F (off + 8 + 1) = some pr := by
    rw [hassoc]
    unfold readU8
    rw [get?_append_len pre _ 1 _ (by omega)]
    rfl
  have e2 : readU8 F (off + 8 + 2) = some cp := by
    rw [hassoc]
    unfold readU8
    rw [get?_append_len pre _ 2 _ (by omega)]
    rfl
  have e3 : readU8 F (off + 8 + 3) = some lv := by
    rw [hassoc]
    unfold readU8
    rw [get?_append_len pre _ 3 _ (by omega)]
    rfl
  have e4 : readU8 F (off + 8 + 4) = some ls := by
    rw [hassoc]
    unfold readU8
    rw [get?_append_len pre _ 4 _ (by omega)]
    rfl
  have e5 : readU8 F (off + 8 + 5) = some 1 := by
    rw [hassoc]
    unfold readU8
    rw [get?_append_len pre _ 5 _ (by omega)]
    rfl
  have e6 : readU16 F (off + 8 + 6) = some (hi * 256 + lo) := by
    have h2 : F = (pre ++ [v, pr, cp, lv, ls, 1]) ++
        ([hi, lo] ++ (S ++ ([np, phi, plo] ++ (P ++ post)))) := by
      simp [hF, List.append_assoc]
    rw [h2]
    exact readU16_append _ hi lo _ _ (by simp; omega)
  have e8 : readBytesAt F (off + 8 + 8) S.length = some S := by
    have h2 : F = (pre ++ [v, pr, cp, lv, ls, 1, hi, lo]) ++
        (S ++ ([np, phi, plo] ++ (P ++ post))) := by
      simp [hF, List.append_assoc]
    rw [h2]
    exact readBytesAt_append _ S _ _ _ (by simp; omega) rfl
  have e9 : readU8 F (off + 8 + 8 + S.length) = some np := by
    have h2 : F = ((pre ++ [v, pr, cp, lv, ls, 1, hi, lo]) ++ S) ++
        ([np, phi, plo] ++ (P ++ post)) := by
      simp [hF, List.append_assoc]
    rw [h2]
    unfold readU8
    rw [get?_append_len _ _ 0 _ (by simp; omega)]
    rfl
  have e10 : readU16 F (off + 8 + 8 + S.length + 1) = some (phi * 256 + plo) := by
    have h2 : F = ((pre ++ [v, pr, cp, lv, ls, 1, hi, lo]) ++ (S ++ [np])) ++
        ([phi, plo] ++ (P ++ post)) := by
      simp [hF, List.append_assoc]
    rw [h2]
    exact readU16_append _ phi plo _ _ (by simp; omega)
  have e11 : readBytesAt F (off + 8 + 8 + S.length + 3) P.length = some P := by
    have h2 : F = ((pre ++ [v, pr, cp, lv, ls, 1, hi, lo]) ++ (S ++ [np, phi, plo])) ++
        (P ++ post) := by
      simp [hF, List.append_assoc]
    rw [h2]
    exact readBytesAt_append _ P _ _ _ (by simp; omega) rfl
  simp only [parseAvcC, Option.bind_eq_bind]
  rw [e0]
  simp only [Option.some_bind]
  rw [e1]
  simp only [Option.some_bind]
  rw [e2]
  simp only [Option.some_bind]
  rw [e3]
  simp only [Option.some_bind]
  rw [e4]
  simp only [Option.some_bind]
  rw [e5]
  simp only [Option.some_bind]
  rw [if_pos (by decide : (1 : Nat) % 32 ≠ 0)]
  rw [e6]
  simp only [Option.some_bind]
  rw [hsl]
  rw [if_neg (by omega)]
  rw [e8]
  simp only [Option.some_bind]
  simp only [parseAvcCPps, Option.bind_eq_bind]
  rw [e9]
  simp only [Option.some_bind]
  rw [if_pos hnp]
  rw [e10]
  simp only [Option.some_bind]
  rw [hpl]
  rw [if_neg (by omega)]
  rw [e11]
  simp only [Option.some_bind]
  rfl

/-- Witness for `c8_amended` on a concrete one-SPS record: an avcC box at
offset 0 (8 header bytes), SPS `[103, 5]`, one PPS `[104, 6]`. -/
theorem c8_witness :
    parseAvcC [0, 0, 0, 0, 0, 0, 0, 0,
      1, 66, 0, 30, 255, 1, 0, 2, 103, 5, 1, 0, 2, 104, 6]
      (emptyCtx 23) 0
      = some { emptyCtx 23 with
          h264 := { (emptyCtx 23).h264 with
            sps := some [103, 5], pps := some [104, 6] } } :=
  c8_amended [0, 0, 0, 0, 0, 0, 0, 0] [103, 5] [104, 6] [] (emptyCtx 23)
    0 1 66 0 30 255 1 0 2 0 2
    (by decide) (by decide) (by decide) (by decide)
    (by decide) (by decide) (by decide) (by decide)

end MediaLib
